import Mathlib

/-!
# Timecode Engine & Marker Ledger — verification development

Shallow embedding of the core of `src/app/(tabs)/index.tsx` (an Expo /
React Native application): the timecode codec (`framesToTimecode`,
`timecodeToFrames`), the wall-clock-driven frame clock (the
`requestAnimationFrame` loop together with `play` / `stop` / `adjust` /
`changeFps`), the marker ledger (`capture` / the marker-clearing part of
`reset`) and the plain-text export formatter (`buildMarkersText`), plus
effect-trace models of the export and summary entry points.

JavaScript numbers are modelled with exact arithmetic: frame counts as
`ℤ` or `ℚ`, wall-clock milliseconds as `ℤ`, and values flowing out of
`Number()` as `ℚ` (with `Option` capturing `NaN`).  All quantities the
claims touch are integers far below 2^53, where JavaScript arithmetic is
exact, except the divisions `elapsed / 1000`, `frames / fps` and
`digits / 10^k`, which are kept as exact rationals before the
immediately following `Math.floor` / `Math.round`.
-/

namespace FrameMark

/-! ## Decimal digit strings

Models of the JavaScript built-ins the codec relies on:
`n.toString()` (decimal rendering), `String.prototype.padStart(2, "0")`,
`String.prototype.split(":")` and `Number(string)`. -/

/-- Character of a decimal digit `d < 10`, as appearing in JavaScript
number-to-string output. -/
def digitChar (d : ℕ) : Char := Char.ofNat (48 + d)

/-- Numeric value carried by a digit character (inverse of `digitChar`). -/
def digitVal (c : Char) : ℕ := c.toNat - 48

/-- Value of a list of decimal digit characters, most significant first. -/
def digitsToNat (l : List Char) : ℕ :=
  l.foldl (fun a c => 10 * a + digitVal c) 0

/-- Decimal digit string of a natural number with explicit fuel (so the
recursion is structural); faithful to JavaScript `n.toString()` for any
`n < fuel`. -/
def natReprAux : ℕ → ℕ → List Char
  | 0, _ => []
  | fuel + 1, n =>
      if n < 10 then [digitChar n]
      else natReprAux fuel (n / 10) ++ [digitChar (n % 10)]

/-- Decimal digit string of a natural number; models JavaScript
`n.toString()` on non-negative integers. -/
def natReprChars (n : ℕ) : List Char := natReprAux (n + 1) n

/-- Decimal rendering of an integer; models JavaScript `i.toString()` on
integers (a leading `-` for negative values). -/
def intReprChars (i : ℤ) : List Char :=
  if i < 0 then '-' :: natReprChars (-i).toNat else natReprChars i.toNat

/-- JavaScript `s.padStart(2, "0")`: prepend `'0'` up to length 2. -/
def padStart2 (l : List Char) : List Char :=
  if l.length < 2 then List.replicate (2 - l.length) '0' ++ l else l

/-- JavaScript `tc.split(":")` on the character list of the string: splits
at every `':'`, keeping empty fields, and always returns at least one
field. -/
def splitColon : List Char → List (List Char)
  | [] => [[]]
  | c :: rest =>
      let r := splitColon rest
      if c = ':' then [] :: r
      else (c :: r.headI) :: r.tail

/-- The ECMA-262 *WhiteSpace* ∪ *LineTerminator* set, as stripped by
`String.prototype.trim` / `trimEnd` and by `Number()`'s input trimming:
TAB, LF, VT, FF, CR, SP, NBSP, the Unicode `Zs` category (U+1680,
U+2000–U+200A, U+202F, U+205F, U+3000), LS, PS and ZWNBSP (U+FEFF). -/
def jsWhitespace (c : Char) : Bool :=
  decide (c.toNat = 9 ∨ c.toNat = 10 ∨ c.toNat = 11 ∨ c.toNat = 12 ∨
    c.toNat = 13 ∨ c.toNat = 32 ∨ c.toNat = 160 ∨ c.toNat = 5760 ∨
    (8192 ≤ c.toNat ∧ c.toNat ≤ 8202) ∨ c.toNat = 8232 ∨ c.toNat = 8233 ∨
    c.toNat = 8239 ∨ c.toNat = 8287 ∨ c.toNat = 12288 ∨ c.toNat = 65279)

/-- JavaScript `s.trimEnd()`: drop trailing ECMA-262 whitespace. -/
def trimEndChars (l : List Char) : List Char :=
  (l.reverse.dropWhile jsWhitespace).reverse

/-- JavaScript `s.trim()`: drop leading and trailing ECMA-262 whitespace
(also the trimming `Number()` applies to its input). -/
def trimChars (l : List Char) : List Char :=
  trimEndChars (l.dropWhile jsWhitespace)

/-- An ASCII decimal digit (`0`–`9`), as in the *DecimalDigit* grammar. -/
def isDigitC (c : Char) : Bool := decide (48 ≤ c.toNat ∧ c.toNat ≤ 57)

/-- A *HexDigit*: `0`–`9`, `a`–`f`, `A`–`F`. -/
def isHexDigitC (c : Char) : Bool :=
  decide ((48 ≤ c.toNat ∧ c.toNat ≤ 57) ∨ (97 ≤ c.toNat ∧ c.toNat ≤ 102) ∨
    (65 ≤ c.toNat ∧ c.toNat ≤ 70))

/-- An *OctalDigit*: `0`–`7`. -/
def isOctDigitC (c : Char) : Bool := decide (48 ≤ c.toNat ∧ c.toNat ≤ 55)

/-- A *BinaryDigit*: `0` or `1`. -/
def isBinDigitC (c : Char) : Bool := decide (48 ≤ c.toNat ∧ c.toNat ≤ 49)

/-- Value of a hex (or octal / binary / decimal) digit character. -/
def hexVal (c : Char) : ℕ :=
  if c.toNat ≤ 57 then c.toNat - 48
  else if c.toNat ≤ 70 then c.toNat - 55
  else c.toNat - 87

/-- Value of a digit string in base `b`, most significant first. -/
def baseDigitsToNat (b : ℕ) (l : List Char) : ℕ :=
  l.foldl (fun a c => b * a + hexVal c) 0

/-- A non-`NaN` JavaScript number as `Number()` can produce one: a finite
value (idealized as an exact rational, as announced in the file header)
or one of the two infinities.  `NaN` itself is `none` at use sites. -/
inductive JsNum where
  | num (q : ℚ)
  | posInf
  | negInf
deriving DecidableEq

/-- JavaScript unary minus on a non-`NaN` number. -/
def jsNeg : JsNum → JsNum
  | JsNum.num q => JsNum.num (-q)
  | JsNum.posInf => JsNum.negInf
  | JsNum.negInf => JsNum.posInf

/-- JavaScript `+` on possibly-`NaN` numbers: `NaN` propagates, opposite
infinities give `NaN`, an infinity absorbs finite values. -/
def jadd : Option JsNum → Option JsNum → Option JsNum
  | some (JsNum.num a), some (JsNum.num b) => some (JsNum.num (a + b))
  | some (JsNum.num _), some JsNum.posInf => some JsNum.posInf
  | some (JsNum.num _), some JsNum.negInf => some JsNum.negInf
  | some JsNum.posInf, some (JsNum.num _) => some JsNum.posInf
  | some JsNum.negInf, some (JsNum.num _) => some JsNum.negInf
  | some JsNum.posInf, some JsNum.posInf => some JsNum.posInf
  | some JsNum.negInf, some JsNum.negInf => some JsNum.negInf
  | _, _ => none

/-- JavaScript `*` on possibly-`NaN` numbers: `NaN` propagates,
`±∞ * 0 = NaN`, otherwise signs multiply. -/
def jmul : Option JsNum → Option JsNum → Option JsNum
  | some (JsNum.num a), some (JsNum.num b) => some (JsNum.num (a * b))
  | some (JsNum.num a), some JsNum.posInf =>
      if 0 < a then some JsNum.posInf else if a < 0 then some JsNum.negInf else none
  | some (JsNum.num a), some JsNum.negInf =>
      if 0 < a then some JsNum.negInf else if a < 0 then some JsNum.posInf else none
  | some JsNum.posInf, some (JsNum.num b) =>
      if 0 < b then some JsNum.posInf else if b < 0 then some JsNum.negInf else none
  | some JsNum.negInf, some (JsNum.num b) =>
      if 0 < b then some JsNum.negInf else if b < 0 then some JsNum.posInf else none
  | some JsNum.posInf, some JsNum.posInf => some JsNum.posInf
  | some JsNum.posInf, some JsNum.negInf => some JsNum.negInf
  | some JsNum.negInf, some JsNum.posInf => some JsNum.negInf
  | some JsNum.negInf, some JsNum.negInf => some JsNum.posInf
  | _, _ => none

/-- The *ExponentPart* of a decimal literal, required to consume the whole
remaining input: empty means exponent `0`; otherwise `e`/`E`, an optional
sign, and a non-empty digit run. -/
def jsExponent (cs : List Char) : Option ℤ :=
  match cs with
  | [] => some 0
  | e :: r =>
      if e = 'e' ∨ e = 'E' then
        match r with
        | '+' :: d =>
            if d ≠ [] ∧ (∀ c ∈ d, isDigitC c = true) then some ((digitsToNat d : ℤ))
            else none
        | '-' :: d =>
            if d ≠ [] ∧ (∀ c ∈ d, isDigitC c = true) then some (-(digitsToNat d : ℤ))
            else none
        | d =>
            if d ≠ [] ∧ (∀ c ∈ d, isDigitC c = true) then some ((digitsToNat d : ℤ))
            else none
      else none

/-- The *StrUnsignedDecimalLiteral* without `Infinity`:
`digits [. digits] [exponent]` with at least one digit before or after
the point, consuming the whole input; its ideal (exact) value. -/
def jsDecimal (cs : List Char) : Option ℚ :=
  let int := cs.takeWhile isDigitC
  let rest1 := cs.dropWhile isDigitC
  let fracRest : List Char × List Char :=
    match rest1 with
    | '.' :: r => (r.takeWhile isDigitC, r.dropWhile isDigitC)
    | _ => ([], rest1)
  if int = [] ∧ fracRest.1 = [] then none
  else
    match jsExponent fracRest.2 with
    | none => none
    | some e =>
        some (((digitsToNat int : ℚ) +
            (digitsToNat fracRest.1 : ℚ) / (10 : ℚ) ^ fracRest.1.length) *
          (10 : ℚ) ^ e)

/-- The *StrUnsignedDecimalLiteral*: `Infinity` or a decimal literal. -/
def jsUnsignedNum (cs : List Char) : Option JsNum :=
  if cs = "Infinity".data then some JsNum.posInf
  else (jsDecimal cs).map JsNum.num

/-- A sign-free *StrNumericLiteral*: a hex / octal / binary integer
literal (`0x` / `0o` / `0b`, which admit no sign) or an unsigned decimal
literal. -/
def jsNumberBody (cs : List Char) : Option JsNum :=
  match cs with
  | c0 :: x :: d =>
      if c0 = '0' ∧ (x = 'x' ∨ x = 'X') then
        if d ≠ [] ∧ (∀ c ∈ d, isHexDigitC c = true) then
          some (JsNum.num ((baseDigitsToNat 16 d : ℚ)))
        else none
      else if c0 = '0' ∧ (x = 'o' ∨ x = 'O') then
        if d ≠ [] ∧ (∀ c ∈ d, isOctDigitC c = true) then
          some (JsNum.num ((baseDigitsToNat 8 d : ℚ)))
        else none
      else if c0 = '0' ∧ (x = 'b' ∨ x = 'B') then
        if d ≠ [] ∧ (∀ c ∈ d, isBinDigitC c = true) then
          some (JsNum.num ((baseDigitsToNat 2 d : ℚ)))
        else none
      else jsUnsignedNum (c0 :: x :: d)
  | _ => jsUnsignedNum cs

/-- Model of JavaScript `Number(s)` (the *StringToNumber* operation):
trim ECMA-262 whitespace from both ends; the empty remainder is `0`; an
optional sign applies to an unsigned decimal literal or `Infinity`;
unsigned input may also be a hex / octal / binary literal; everything
else is `NaN` (`none`).  Finite values are ideal (exact) rationals. -/
def jsNumber (s : String) : Option JsNum :=
  match trimChars s.data with
  | [] => some (JsNum.num 0)
  | c :: r =>
      if c = '-' then (jsUnsignedNum r).map jsNeg
      else if c = '+' then jsUnsignedNum r
      else jsNumberBody (c :: r)

/-! ## TimecodeCodec (`framesToTimecode` / `timecodeToFrames`) -/

/-- Source `framesToTimecode` (src/app/(tabs)/index.tsx:40-54):
clamp to `0`, split the frame count into `HH:MM:SS:FF` by repeated
division, render each field zero-padded to width 2.  `frames` and `fps`
are the integers the app uses; `%` and `/` here agree with JavaScript
`%` and `Math.floor` of the division because the clamped operand is
non-negative and the app's `fps` is positive. -/
def framesToTimecode (frames : ℤ) (fps : ℤ) : String :=
  let f := max 0 frames
  let ff := f % fps
  let totalSeconds := f / fps
  let ss := totalSeconds % 60
  let totalMinutes := totalSeconds / 60
  let mm := totalMinutes % 60
  let hh := totalMinutes / 60
  ⟨padStart2 (intReprChars hh) ++ ':' ::
    (padStart2 (intReprChars mm) ++ ':' ::
      (padStart2 (intReprChars ss) ++ ':' :: padStart2 (intReprChars ff)))⟩

/-- The decode arithmetic `(h*3600 + m*60 + s) * fps + f` of the source,
evaluated in JavaScript number arithmetic over the four non-`NaN`
fields. -/
def decodeSum (h m s f : JsNum) (fps : ℤ) : Option JsNum :=
  jadd
    (jmul
      (jadd
        (jadd (jmul (some h) (some (JsNum.num 3600)))
              (jmul (some m) (some (JsNum.num 60))))
        (some s))
      (some (JsNum.num ((fps : ℚ)))))
    (some f)

/-- Source `timecodeToFrames` (src/app/(tabs)/index.tsx:56-61): split on
`':'`, convert each field with `Number`; unless that yields exactly 4
non-`NaN` fields, return `0`; otherwise `(h*3600 + m*60 + s)*fps + f`. -/
def timecodeToFrames (tc : String) (fps : ℤ) : Option JsNum :=
  match (splitColon tc.data).map (fun w => jsNumber ⟨w⟩) with
  | [some h, some m, some s, some f] => decodeSum h m s f fps
  | _ => some (JsNum.num 0)

/-! ## TimecodeClock

State of the clock: `fps` and `frames` React state, the `playing` flag,
and the refs `startMs` / `baseFrames` that anchor the
`requestAnimationFrame` loop (src/app/(tabs)/index.tsx:372-374,382-404). -/

structure ClockState where
  fps : ℚ
  frames : ℚ
  playing : Bool
  startMs : ℤ
  baseFrames : ℚ
deriving DecidableEq

/-- Body of the `requestAnimationFrame` loop
(src/app/(tabs)/index.tsx:392-396), run at wall-clock instant `now`
while playing: `elapsed = now - startMs`;
`frames = baseFrames + floor(elapsed / 1000 * fps)`. -/
def tick (now : ℤ) (s : ClockState) : ClockState :=
  let elapsed : ℤ := now - s.startMs
  let add : ℤ := ⌊((elapsed : ℚ) / 1000) * s.fps⌋
  { s with frames := s.baseFrames + (add : ℚ) }

/-- The external scheduler running the loop body once at each instant of
`ts`, in order. -/
def runTicks (s : ClockState) (ts : List ℤ) : ClockState :=
  ts.foldl (fun s t => tick t s) s

/-- Source `play` (src/app/(tabs)/index.tsx:408-412): re-baseline and set
the playing flag (the timer effect re-runs the same two ref
assignments when `playing` flips to `true`). -/
def play (now : ℤ) (s : ClockState) : ClockState :=
  { s with baseFrames := s.frames, startMs := now, playing := true }

/-- Source `stop` (src/app/(tabs)/index.tsx:414-418): clear the playing
flag (and cancel the scheduled callback, which the trace model makes
implicit: no further `tick` is run). -/
def stop (s : ClockState) : ClockState := { s with playing := false }

/-- Source `adjust` (src/app/(tabs)/index.tsx:428-430):
`setFrames(f => Math.max(0, f + deltaSeconds * fps))`; it touches no
other field (in particular not `baseFrames` / `startMs`), and changes
neither `playing` nor `fps`, so the timer effect does not re-run. -/
def adjust (deltaSeconds : ℚ) (s : ClockState) : ClockState :=
  { s with frames := max 0 (s.frames + deltaSeconds * s.fps) }

/-- Source `framesToSeconds` (src/app/(tabs)/index.tsx:63). -/
def framesToSeconds (frames fps : ℚ) : ℚ := frames / fps

/-- JavaScript `Math.round`: round half toward positive infinity. -/
def jsRound (x : ℚ) : ℤ := ⌊x + 1 / 2⌋

/-- Source `secondsToFrames` (src/app/(tabs)/index.tsx:64-65):
`Math.round(seconds * fps)`. -/
def secondsToFrames (seconds fps : ℚ) : ℚ := (jsRound (seconds * fps) : ℚ)

/-- Source `changeFps` (src/app/(tabs)/index.tsx:432-439): reconvert the
current frame position through seconds under the old fps, then switch
the frame rate. -/
def changeFps (newFps : ℚ) (s : ClockState) : ClockState :=
  { s with frames := secondsToFrames (framesToSeconds s.frames s.fps) newFps,
           fps := newFps }

/-! ## MarkerLedger -/

/-- Source `Marker` type (src/app/(tabs)/index.tsx:29-33). -/
structure Marker where
  id : ℕ
  frames : ℤ
  comment : String
deriving DecidableEq

/-- The ledger: the `markers` React state plus the `nextMarkerId` ref
(src/app/(tabs)/index.tsx:329,444). -/
structure Ledger where
  markers : List Marker
  nextMarkerId : ℕ
deriving DecidableEq

/-- Initial ledger: no markers, `nextMarkerId = useRef(1)`. -/
def initialLedger : Ledger := { markers := [], nextMarkerId := 1 }

/-- Source `capture` (src/app/(tabs)/index.tsx:446-455): append a marker
with an empty comment and id `nextMarkerId++`. -/
def capture (frames : ℤ) (st : Ledger) : Ledger :=
  { markers := st.markers ++ [{ id := st.nextMarkerId, frames := frames, comment := "" }],
    nextMarkerId := st.nextMarkerId + 1 }

/-- Repeated `capture` at the given frame positions, in order. -/
def captureMany (fs : List ℤ) (st : Ledger) : Ledger :=
  fs.foldl (fun s f => capture f s) st

/-- The marker-clearing part of `reset` (src/app/(tabs)/index.tsx:424
`setMarkers([])`): drop every marker, leave `nextMarkerId` alone. -/
def clearMarkers (st : Ledger) : Ledger := { st with markers := [] }

/-- Source `saveComment` (src/app/(tabs)/index.tsx:457-464) applied to a
marker id: replace the comment of the matching marker. -/
def saveComment (mid : ℕ) (comment : String) (st : Ledger) : Ledger :=
  { st with
    markers := st.markers.map fun m =>
      if m.id = mid then { m with comment := comment } else m }

/-- The two sort modes of the UI (src/app/(tabs)/index.tsx:334). -/
inductive SortMode where
  | created
  | timecode
deriving DecidableEq

/-- Comparator of the source sorts
(`(a, b) => a.frames - b.frames`, non-positive iff `a.frames ≤ b.frames`). -/
def framesLE (a b : Marker) : Prop := a.frames ≤ b.frames

instance : DecidableRel framesLE := fun a b => Int.decLe a.frames b.frames

instance : IsTotal Marker framesLE := ⟨fun a b => Int.le_total a.frames b.frames⟩

instance : IsTrans Marker framesLE := ⟨fun _ _ _ h1 h2 => le_trans h1 h2⟩

/-- Source `[...markers].sort((a, b) => a.frames - b.frames)`
(src/app/(tabs)/index.tsx:466-469,836-842): `Array.prototype.sort` is
required by ECMA-262 to be a stable sort, realized here as a stable
insertion sort. -/
def sortByFrames (ms : List Marker) : List Marker :=
  List.insertionSort framesLE ms

/-- The ordered view every export path starts from: insertion order for
`"created"`, stable ascending frame sort for `"timecode"`. -/
def orderedMarkers (sm : SortMode) (ms : List Marker) : List Marker :=
  match sm with
  | .timecode => sortByFrames ms
  | .created => ms

/-! ## ExportFormatter -/

/-- One line of the plain-text export
(src/app/(tabs)/index.tsx:471-477), for the marker at 0-based position
`index` of the ordered collection:
the template `#{num} [{tc}] {c}` with `num = String(index+1).padStart(2, "0")`,
`tc = framesToTimecode(m.frames, fps)` and `c = (m.comment || "").trim()`
(`|| ""` is the identity on strings), then `trimEnd()`-ed. -/
def markerLineChars (index : ℕ) (m : Marker) (fps : ℤ) : List Char :=
  trimEndChars ('#' :: padStart2 (natReprChars (index + 1)) ++ ' ' :: '[' ::
    (framesToTimecode m.frames fps).data ++ ']' :: ' ' :: trimChars m.comment.data)

/-- Source `buildMarkersText` (src/app/(tabs)/index.tsx:466-480): order
the markers by the current sort mode, render one line per marker, join
with `"\n"`. -/
def buildMarkersText (sm : SortMode) (ms : List Marker) (fps : ℤ) : String :=
  ⟨List.intercalate ['\n']
    ((orderedMarkers sm ms).enum.map (fun p => markerLineChars p.1 p.2 fps))⟩

/-- One line of the summary request text
(src/app/(tabs)/index.tsx:798-800): `[{tc}] {m.comment || ""}`, without
trimming. -/
def summaryLineChars (m : Marker) (fps : ℤ) : List Char :=
  '[' :: (framesToTimecode m.frames fps).data ++ ']' :: ' ' :: m.comment.data

/-- The marker text embedded in the summary request. -/
def summaryText (sm : SortMode) (ms : List Marker) (fps : ℤ) : String :=
  ⟨List.intercalate ['\n'] ((orderedMarkers sm ms).map (fun m => summaryLineChars m fps))⟩

/-- The full prompt sent to the summary collaborator
(src/app/(tabs)/index.tsx:802). -/
def summaryPrompt (sm : SortMode) (ms : List Marker) (fps : ℤ) : String :=
  "Riassumi i seguenti commenti di una sessione di screening video:\n" ++
    summaryText sm ms fps

/-! ## Effect traces of the export / summary entry points

The I/O the app performs is abstracted as a trace of effects; each entry
point returns the effects it would run, in order.  External inputs (the
chosen file name, the platform, sharing availability, the presence of
the API key, the collaborator's response) are parameters. -/

inductive Effect where
  /-- `Alert.alert(title, message)` — the user-visible notice. -/
  | alert (title message : String)
  /-- `FileSystem.writeAsStringAsync(name, content)`. -/
  | writeFile (name content : String)
  /-- `Sharing.shareAsync(name)`. -/
  | share (name : String)
  /-- `Print.printToFileAsync({ html })` — rendering the tabular document. -/
  | printToFile
  /-- `FileSystem.copyAsync({ from: result.uri, to: name })`. -/
  | copyFile (name : String)
  /-- `Clipboard.setStringAsync(text)`. -/
  | clipboardSet (text : String)
  /-- The `fetch` POST to the remote text-generation collaborator. -/
  | httpPost (prompt : String)
deriving DecidableEq

/-- Source `exportMarkers` (src/app/(tabs)/index.tsx:546-559): guard on an
empty collection, else write the plain text and share it. -/
def exportMarkersRun (ms : List Marker) (sm : SortMode) (fps : ℤ)
    (fileName : String) : List Effect :=
  if ms = [] then [Effect.alert "Export" "Nessun marker da esportare."]
  else [Effect.writeFile fileName (buildMarkersText sm ms fps),
        Effect.share fileName]

/-- Source `exportMarkersPdf` (src/app/(tabs)/index.tsx:562-732): guard on
an empty collection, guard on the web platform, else print the tabular
document to a file, copy it to the chosen name, and share when sharing
is available. -/
def exportMarkersPdfRun (ms : List Marker) (isWeb : Bool)
    (fileName : String) (canShare : Bool) : List Effect :=
  if ms = [] then [Effect.alert "Export" "Nessun marker da esportare."]
  else if isWeb then [Effect.alert "Export PDF" "Export PDF non supportato su web."]
  else Effect.printToFile :: Effect.copyFile fileName ::
    (if canShare then [Effect.share fileName]
     else [Effect.alert "Export" "Sharing non disponibile su questo dispositivo."])

/-- Source `copyMarkersToClipboard` (src/app/(tabs)/index.tsx:734-742):
guard on an empty collection, else copy the plain text and confirm. -/
def copyMarkersRun (ms : List Marker) (sm : SortMode) (fps : ℤ) : List Effect :=
  if ms = [] then [Effect.alert "Export" "Nessun marker da copiare."]
  else [Effect.clipboardSet (buildMarkersText sm ms fps),
        Effect.alert "Copiato" "Markers copiati negli appunti."]

/-- The component state `generateSummary` may write
(src/app/(tabs)/index.tsx:369-370). -/
structure SummaryState where
  summary : String
  loadingSummary : Bool
deriving DecidableEq

/-- Source `generateSummary` (src/app/(tabs)/index.tsx:777-833): guard on
an empty collection, guard on a missing API key, else POST the prompt
and end with the collaborator's (or error) text as the summary and the
loading flag cleared.  `response` stands for the text the call resolves
to. -/
def generateSummaryRun (ms : List Marker) (sm : SortMode) (fps : ℤ)
    (hasKey : Bool) (response : String) (st : SummaryState) :
    List Effect × SummaryState :=
  if ms = [] then ([Effect.alert "Riepilogo" "Nessun marker disponibile."], st)
  else if hasKey = false then
    ([Effect.alert "Gemini API key mancante"
        "Aggiungi EXPO_PUBLIC_GEMINI_KEY nel file .env e riavvia l\x27app."], st)
  else ([Effect.httpPost (summaryPrompt sm ms fps)],
        { summary := response, loadingSummary := false })

/-! ## Lemmas: digit strings -/

lemma digitChar_isDigitC {d : ℕ} (h : d < 10) : isDigitC (digitChar d) = true := by
  interval_cases d <;> decide

lemma digitVal_digitChar {d : ℕ} (h : d < 10) : digitVal (digitChar d) = d := by
  interval_cases d <;> decide

lemma ne_of_isDigitC {c : Char} (h : isDigitC c = true) :
    c ≠ ':' ∧ c ≠ '-' ∧ c ≠ '+' := by
  refine ⟨?_, ?_, ?_⟩ <;> rintro rfl <;> exact absurd h (by decide)

lemma not_radix_of_isDigitC {x : Char} (h : isDigitC x = true) :
    ¬ (x = 'x' ∨ x = 'X') ∧ ¬ (x = 'o' ∨ x = 'O') ∧ ¬ (x = 'b' ∨ x = 'B') := by
  refine ⟨?_, ?_, ?_⟩ <;> rintro (rfl | rfl) <;> exact absurd h (by decide)

lemma not_ws_of_isDigitC {c : Char} (h : isDigitC c = true) :
    jsWhitespace c = false := by
  rw [isDigitC, decide_eq_true_eq] at h
  rw [jsWhitespace, decide_eq_false_iff_not]
  omega

lemma digitsToNat_cons (c : Char) (l : List Char) :
    digitsToNat (c :: l) =
      l.foldl (fun a c => 10 * a + digitVal c) (digitVal c) := by
  simp [digitsToNat]

lemma digitsToNat_append_singleton (l : List Char) (c : Char) :
    digitsToNat (l ++ [c]) = 10 * digitsToNat l + digitVal c := by
  simp [digitsToNat, List.foldl_append]

lemma natReprAux_spec :
    ∀ fuel n, n < fuel →
      natReprAux fuel n ≠ [] ∧ (∀ c ∈ natReprAux fuel n, isDigitC c = true) ∧
        digitsToNat (natReprAux fuel n) = n := by
  intro fuel
  induction fuel with
  | zero => intro n h; omega
  | succ fuel ih =>
    intro n h
    by_cases h10 : n < 10
    · refine ⟨?_, ?_, ?_⟩ <;> simp only [natReprAux, if_pos h10]
      · simp
      · intro c hc
        rw [List.mem_singleton] at hc
        subst hc
        exact digitChar_isDigitC h10
      · rw [show [digitChar n] = [] ++ [digitChar n] from rfl,
          digitsToNat_append_singleton]
        simp [digitsToNat, digitVal_digitChar h10]
    · have hdiv : n / 10 < fuel := by omega
      obtain ⟨hne, hdig, hval⟩ := ih (n / 10) hdiv
      refine ⟨?_, ?_, ?_⟩ <;> simp only [natReprAux, if_neg h10]
      · simp
      · intro c hc
        rcases List.mem_append.1 hc with hc | hc
        · exact hdig c hc
        · rw [List.mem_singleton] at hc
          subst hc
          exact digitChar_isDigitC (Nat.mod_lt n (by norm_num))
      · rw [digitsToNat_append_singleton, hval,
          digitVal_digitChar (Nat.mod_lt n (by norm_num))]
        omega

lemma natReprChars_ne_nil (n : ℕ) : natReprChars n ≠ [] :=
  (natReprAux_spec (n + 1) n (Nat.lt_succ_self n)).1

lemma natReprChars_isDigitC (n : ℕ) : ∀ c ∈ natReprChars n, isDigitC c = true :=
  (natReprAux_spec (n + 1) n (Nat.lt_succ_self n)).2.1

lemma digitsToNat_natReprChars (n : ℕ) : digitsToNat (natReprChars n) = n :=
  (natReprAux_spec (n + 1) n (Nat.lt_succ_self n)).2.2

lemma padStart2_ne_nil (l : List Char) : padStart2 l ≠ [] := by
  unfold padStart2
  split
  · rename_i h
    cases l with
    | nil => decide
    | cons c t => simp
  · rename_i h
    intro hl
    rw [hl] at h
    simp at h

lemma padStart2_isDigit (l : List Char) (h : ∀ c ∈ l, isDigitC c = true) :
    ∀ c ∈ padStart2 l, isDigitC c = true := by
  intro c hc
  unfold padStart2 at hc
  split at hc
  · rcases List.mem_append.1 hc with hc | hc
    · rw [List.eq_of_mem_replicate hc]
      decide
    · exact h c hc
  · exact h c hc

lemma foldl_digits_replicate_zero (k : ℕ) :
    List.foldl (fun a c => 10 * a + digitVal c) 0 (List.replicate k '0') = 0 := by
  induction k with
  | zero => rfl
  | succ k ih => simpa [List.replicate_succ, digitVal] using ih

lemma digitsToNat_padStart2 (l : List Char) :
    digitsToNat (padStart2 l) = digitsToNat l := by
  unfold padStart2
  split
  · simp only [digitsToNat, List.foldl_append, foldl_digits_replicate_zero]
  · rfl

lemma takeWhile_eq_self_of_all {p : Char → Bool} {l : List Char}
    (h : ∀ c ∈ l, p c = true) : l.takeWhile p = l := by
  induction l with
  | nil => rfl
  | cons c t ih =>
    rw [List.takeWhile_cons_of_pos (h c (List.mem_cons_self c t))]
    rw [ih fun c hc => h c (List.mem_cons_of_mem _ hc)]

lemma dropWhile_eq_nil_of_all {p : Char → Bool} {l : List Char}
    (h : ∀ c ∈ l, p c = true) : l.dropWhile p = [] := by
  induction l with
  | nil => rfl
  | cons c t ih =>
    rw [List.dropWhile_cons_of_pos (h c (List.mem_cons_self c t))]
    exact ih fun c hc => h c (List.mem_cons_of_mem _ hc)

lemma dropWhile_eq_self_of_all_neg {p : Char → Bool} {l : List Char}
    (h : ∀ c ∈ l, p c = false) : l.dropWhile p = l := by
  cases l with
  | nil => rfl
  | cons c t =>
    have hc : ¬ p c = true := by
      rw [h c (List.mem_cons_self c t)]
      simp
    exact List.dropWhile_cons_of_neg hc

lemma trimChars_eq_self {l : List Char} (h : ∀ c ∈ l, jsWhitespace c = false) :
    trimChars l = l := by
  unfold trimChars trimEndChars
  rw [dropWhile_eq_self_of_all_neg h,
    dropWhile_eq_self_of_all_neg (fun c hc => h c (List.mem_reverse.1 hc)),
    List.reverse_reverse]

/-! ## Lemmas: `jsNumber` on the fields the codec emits -/

lemma jsDecimal_digits (l : List Char) (hne : l ≠ [])
    (hd : ∀ c ∈ l, isDigitC c = true) :
    jsDecimal l = some ((digitsToNat l : ℚ)) := by
  unfold jsDecimal
  rw [takeWhile_eq_self_of_all hd, dropWhile_eq_nil_of_all hd]
  show (if l = [] ∧ ([] : List Char) = [] then none
        else
          match jsExponent [] with
          | none => none
          | some e =>
              some (((digitsToNat l : ℚ) +
                  (digitsToNat ([] : List Char) : ℚ) /
                    (10 : ℚ) ^ ([] : List Char).length) * (10 : ℚ) ^ e)) =
      some ((digitsToNat l : ℚ))
  rw [if_neg (by simp [hne])]
  show some (((digitsToNat l : ℚ) +
      (digitsToNat ([] : List Char) : ℚ) / (10 : ℚ) ^ ([] : List Char).length) *
        (10 : ℚ) ^ (0 : ℤ)) = some ((digitsToNat l : ℚ))
  rw [show digitsToNat ([] : List Char) = 0 from rfl]
  norm_num

lemma jsUnsignedNum_digits (l : List Char) (hne : l ≠ [])
    (hd : ∀ c ∈ l, isDigitC c = true) :
    jsUnsignedNum l = some (JsNum.num ((digitsToNat l : ℚ))) := by
  have hinf : ¬ l = "Infinity".data := by
    intro he
    have hI : isDigitC 'I' = true := hd 'I' (by rw [he]; decide)
    exact absurd hI (by decide)
  unfold jsUnsignedNum
  rw [if_neg hinf, jsDecimal_digits l hne hd]
  rfl

lemma jsNumberBody_digits (l : List Char) (hne : l ≠ [])
    (hd : ∀ c ∈ l, isDigitC c = true) :
    jsNumberBody l = some (JsNum.num ((digitsToNat l : ℚ))) := by
  cases l with
  | nil => exact absurd rfl hne
  | cons c0 t =>
    cases t with
    | nil =>
      show jsUnsignedNum [c0] = _
      exact jsUnsignedNum_digits [c0] (by simp) hd
    | cons x d =>
      have hx := not_radix_of_isDigitC (hd x (by simp))
      show (if c0 = '0' ∧ (x = 'x' ∨ x = 'X') then
              if d ≠ [] ∧ (∀ c ∈ d, isHexDigitC c = true) then
                some (JsNum.num ((baseDigitsToNat 16 d : ℚ)))
              else none
            else if c0 = '0' ∧ (x = 'o' ∨ x = 'O') then
              if d ≠ [] ∧ (∀ c ∈ d, isOctDigitC c = true) then
                some (JsNum.num ((baseDigitsToNat 8 d : ℚ)))
              else none
            else if c0 = '0' ∧ (x = 'b' ∨ x = 'B') then
              if d ≠ [] ∧ (∀ c ∈ d, isBinDigitC c = true) then
                some (JsNum.num ((baseDigitsToNat 2 d : ℚ)))
              else none
            else jsUnsignedNum (c0 :: x :: d)) =
          some (JsNum.num ((digitsToNat (c0 :: x :: d) : ℚ)))
      rw [if_neg (fun hq => hx.1 hq.2), if_neg (fun hq => hx.2.1 hq.2),
        if_neg (fun hq => hx.2.2 hq.2)]
      exact jsUnsignedNum_digits _ hne hd

lemma jsNumber_trim_digits (s : String) (l : List Char)
    (ht : trimChars s.data = l) (hne : l ≠ [])
    (hd : ∀ c ∈ l, isDigitC c = true) :
    jsNumber s = some (JsNum.num ((digitsToNat l : ℚ))) := by
  unfold jsNumber
  rw [ht]
  obtain ⟨c, cs, rfl⟩ := List.exists_cons_of_ne_nil hne
  have hc := ne_of_isDigitC (hd c (List.mem_cons_self c cs))
  show (if c = '-' then (jsUnsignedNum cs).map jsNeg
        else if c = '+' then jsUnsignedNum cs
        else jsNumberBody (c :: cs)) =
      some (JsNum.num ((digitsToNat (c :: cs) : ℚ)))
  rw [if_neg hc.2.1, if_neg hc.2.2]
  exact jsNumberBody_digits (c :: cs) hne hd

lemma jsNumber_trim_neg_digits (s : String) (l : List Char)
    (ht : trimChars s.data = '-' :: l) (hne : l ≠ [])
    (hd : ∀ c ∈ l, isDigitC c = true) :
    jsNumber s = some (JsNum.num (-((digitsToNat l : ℚ)))) := by
  unfold jsNumber
  rw [ht]
  show (jsUnsignedNum l).map jsNeg = some (JsNum.num (-((digitsToNat l : ℚ))))
  rw [jsUnsignedNum_digits l hne hd]
  rfl

lemma jsNumber_digits (l : List Char) (hne : l ≠ [])
    (hd : ∀ c ∈ l, isDigitC c = true) :
    jsNumber ⟨l⟩ = some (JsNum.num ((digitsToNat l : ℚ))) :=
  jsNumber_trim_digits ⟨l⟩ l
    (trimChars_eq_self (fun c hc => not_ws_of_isDigitC (hd c hc))) hne hd

/-- The rendered field of a non-negative integer: no colon in it, and
`jsNumber` reads the value back. -/
lemma jsNumber_field {x : ℤ} (hx : 0 ≤ x) :
    (':' ∉ padStart2 (intReprChars x)) ∧
      jsNumber ⟨padStart2 (intReprChars x)⟩ = some (JsNum.num ((x : ℚ))) := by
  have hrepr : intReprChars x = natReprChars x.toNat := by
    unfold intReprChars
    rw [if_neg (not_lt.2 hx)]
  have hd : ∀ c ∈ padStart2 (intReprChars x), isDigitC c = true := by
    rw [hrepr]
    exact padStart2_isDigit _ (natReprChars_isDigitC x.toNat)
  refine ⟨?_, ?_⟩
  · intro hmem
    exact absurd rfl (ne_of_isDigitC (hd _ hmem)).1
  · rw [jsNumber_digits _ (by rw [hrepr]; exact padStart2_ne_nil _) hd, hrepr,
      digitsToNat_padStart2, digitsToNat_natReprChars]
    simp only [Option.some.injEq, JsNum.num.injEq]
    exact_mod_cast congrArg (fun z : ℤ => (z : ℚ)) (Int.toNat_of_nonneg hx)

/-- The decode arithmetic on four finite fields is the exact formula. -/
lemma decodeSum_num (a b c d : ℚ) (fps : ℤ) :
    decodeSum (JsNum.num a) (JsNum.num b) (JsNum.num c) (JsNum.num d) fps =
      some (JsNum.num ((a * 3600 + b * 60 + c) * (fps : ℚ) + d)) := rfl

/-! ## Lemmas: split on colons -/

lemma splitColon_no_colon {l : List Char} (h : ':' ∉ l) : splitColon l = [l] := by
  induction l with
  | nil => rfl
  | cons c t ih =>
    rw [List.mem_cons, not_or] at h
    have hcc : ¬ c = ':' := fun hc => h.1 hc.symm
    simp only [splitColon, if_neg hcc, ih h.2]
    rfl

lemma splitColon_append {a : List Char} (r : List Char) (h : ':' ∉ a) :
    splitColon (a ++ ':' :: r) = a :: splitColon r := by
  induction a with
  | nil => simp [splitColon]
  | cons c t ih =>
    rw [List.mem_cons, not_or] at h
    have hcc : ¬ c = ':' := fun hc => h.1 hc.symm
    rw [List.cons_append]
    simp only [splitColon, if_neg hcc, ih h.2]
    rfl

/-! ## C1: round trip of the codec -/

/-- General round trip: for any non-negative frame count and positive fps,
decoding the encoding recovers the frame count. -/
lemma roundTrip (f fps : ℤ) (h0 : 0 ≤ f) (hfps : 0 < fps) :
    timecodeToFrames (framesToTimecode f fps) fps = some (JsNum.num ((f : ℚ))) := by
  have hbne : fps ≠ 0 := ne_of_gt hfps
  have hff : 0 ≤ f % fps := Int.emod_nonneg f hbne
  have hts : 0 ≤ f / fps := Int.ediv_nonneg h0 (le_of_lt hfps)
  have hss : 0 ≤ f / fps % 60 := Int.emod_nonneg _ (by norm_num)
  have htm : 0 ≤ f / fps / 60 := Int.ediv_nonneg hts (by norm_num)
  have hmm : 0 ≤ f / fps / 60 % 60 := Int.emod_nonneg _ (by norm_num)
  have hhh : 0 ≤ f / fps / 60 / 60 := Int.ediv_nonneg htm (by norm_num)
  obtain ⟨hc4, hj4⟩ := jsNumber_field hff
  obtain ⟨hc3, hj3⟩ := jsNumber_field hss
  obtain ⟨hc2, hj2⟩ := jsNumber_field hmm
  obtain ⟨hc1, hj1⟩ := jsNumber_field hhh
  have hmax : max 0 f = f := max_eq_right h0
  unfold framesToTimecode
  rw [hmax]
  unfold timecodeToFrames
  rw [show String.data ⟨_⟩ = _ from rfl,
    splitColon_append _ hc1, splitColon_append _ hc2, splitColon_append _ hc3,
    splitColon_no_colon hc4]
  rw [List.map_cons, List.map_cons, List.map_cons, List.map_cons,
    List.map_nil, hj1, hj2, hj3, hj4]
  show decodeSum (JsNum.num ((f / fps / 60 / 60 : ℤ) : ℚ))
      (JsNum.num ((f / fps / 60 % 60 : ℤ) : ℚ))
      (JsNum.num ((f / fps % 60 : ℤ) : ℚ))
      (JsNum.num ((f % fps : ℤ) : ℚ)) fps = some (JsNum.num ((f : ℚ)))
  rw [decodeSum_num]
  simp only [Option.some.injEq, JsNum.num.injEq]
  have e1 := Int.ediv_add_emod f fps
  have e2 := Int.ediv_add_emod (f / fps) 60
  have e3 := Int.ediv_add_emod (f / fps / 60) 60
  have hz : (f / fps / 60 / 60 * 3600 + f / fps / 60 % 60 * 60 + f / fps % 60)
      * fps + f % fps = f := by
    have hA : f / fps / 60 / 60 * 3600 + f / fps / 60 % 60 * 60 + f / fps % 60
        = f / fps := by linarith
    rw [hA]
    nlinarith [e1]
  exact_mod_cast hz

/-- C1: for every `fps ∈ {24, 25, 30}` and every integer `f` with
`0 ≤ f < fps*86400*24`, decoding the encoding gives the frame count
back: `timecodeToFrames (framesToTimecode f fps) fps = f`. -/
theorem c1_timecode_roundtrip (fps f : ℤ)
    (hfps : fps = 24 ∨ fps = 25 ∨ fps = 30)
    (h0 : 0 ≤ f) (h1 : f < fps * 86400 * 24) :
    timecodeToFrames (framesToTimecode f fps) fps = some (JsNum.num ((f : ℚ))) :=
  roundTrip f fps h0 (by rcases hfps with h | h | h <;> rw [h] <;> norm_num)

/-- Witness for C1 at `fps = 24`, `f = 100000`. -/
theorem c1_timecode_roundtrip_witness :
    ((24 : ℤ) = 24 ∨ (24 : ℤ) = 25 ∨ (24 : ℤ) = 30) ∧ (0 : ℤ) ≤ 100000 ∧
      (100000 : ℤ) < 24 * 86400 * 24 ∧
      timecodeToFrames (framesToTimecode 100000 24) 24 =
        some (JsNum.num ((100000 : ℚ))) :=
  ⟨Or.inl rfl, by norm_num, by norm_num,
    c1_timecode_roundtrip 24 100000 (Or.inl rfl) (by norm_num) (by norm_num)⟩

/-! ## C5 and C10: decode's lenient fallback and its absence of range
restriction -/

/-- C5: decode never signals failure; when splitting on `':'` and
converting with `Number` yields exactly 4 non-`NaN` fields `h m s f`, the
result is the JavaScript value of `(h*3600 + m*60 + s)*fps + f`; in
every other case the result is `0`. -/
theorem c5_decode_lenient_fallback (tc : String) (fps : ℤ) :
    (∀ h m s f : JsNum,
        (splitColon tc.data).map (fun w => jsNumber ⟨w⟩) =
            [some h, some m, some s, some f] →
        timecodeToFrames tc fps = decodeSum h m s f fps) ∧
    ((¬ ∃ h m s f : JsNum,
        (splitColon tc.data).map (fun w => jsNumber ⟨w⟩) =
            [some h, some m, some s, some f]) →
        timecodeToFrames tc fps = some (JsNum.num 0)) := by
  constructor
  · intro h m s f he
    unfold timecodeToFrames
    rw [he]
  · intro hne
    unfold timecodeToFrames
    split
    · rename_i h m s f he
      exact absurd ⟨h, m, s, f, he⟩ hne
    · rfl

/-- Witness for C5: a plain timecode, a whitespace-padded one, one with a
hex field, and a malformed string. -/
theorem c5_decode_lenient_fallback_witness :
    timecodeToFrames "01:02:03:04" 24 =
        some (JsNum.num (((1 : ℚ) * 3600 + 2 * 60 + 3) * (24 : ℚ) + 4)) ∧
    timecodeToFrames " 1: 0: 0: 0" 24 = some (JsNum.num 86400) ∧
    timecodeToFrames "0x10:0:0:0" 24 = some (JsNum.num 1382400) ∧
    timecodeToFrames "garbage" 24 = some (JsNum.num 0) := by
  have f01 : jsNumber ⟨['0', '1']⟩ = some (JsNum.num 1) := by
    rw [jsNumber_digits ['0', '1'] (by decide) (by decide)]
    norm_num [show digitsToNat ['0', '1'] = 1 from by decide]
  have f02 : jsNumber ⟨['0', '2']⟩ = some (JsNum.num 2) := by
    rw [jsNumber_digits ['0', '2'] (by decide) (by decide)]
    norm_num [show digitsToNat ['0', '2'] = 2 from by decide]
  have f03 : jsNumber ⟨['0', '3']⟩ = some (JsNum.num 3) := by
    rw [jsNumber_digits ['0', '3'] (by decide) (by decide)]
    norm_num [show digitsToNat ['0', '3'] = 3 from by decide]
  have f04 : jsNumber ⟨['0', '4']⟩ = some (JsNum.num 4) := by
    rw [jsNumber_digits ['0', '4'] (by decide) (by decide)]
    norm_num [show digitsToNat ['0', '4'] = 4 from by decide]
  have fs1 : jsNumber ⟨[' ', '1']⟩ = some (JsNum.num 1) := by
    rw [jsNumber_trim_digits ⟨[' ', '1']⟩ ['1'] (by decide) (by decide) (by decide)]
    norm_num [show digitsToNat ['1'] = 1 from by decide]
  have fs0 : jsNumber ⟨[' ', '0']⟩ = some (JsNum.num 0) := by
    rw [jsNumber_trim_digits ⟨[' ', '0']⟩ ['0'] (by decide) (by decide) (by decide)]
    norm_num [show digitsToNat ['0'] = 0 from by decide]
  have fx : jsNumber ⟨['0', 'x', '1', '0']⟩ = some (JsNum.num 16) := by
    have e : jsNumber ⟨['0', 'x', '1', '0']⟩ =
        some (JsNum.num ((baseDigitsToNat 16 ['1', '0'] : ℚ))) := rfl
    rw [e]
    norm_num [show baseDigitsToNat 16 ['1', '0'] = 16 from by decide]
  have f0 : jsNumber ⟨['0']⟩ = some (JsNum.num 0) := by
    rw [jsNumber_digits ['0'] (by decide) (by decide)]
    norm_num [show digitsToNat ['0'] = 0 from by decide]
  refine ⟨?_, ?_, ?_, ?_⟩
  · have hs : splitColon "01:02:03:04".data =
        [['0', '1'], ['0', '2'], ['0', '3'], ['0', '4']] := by decide
    have hmap : (splitColon "01:02:03:04".data).map (fun w => jsNumber ⟨w⟩) =
        [some (JsNum.num 1), some (JsNum.num 2), some (JsNum.num 3),
          some (JsNum.num 4)] := by
      rw [hs]
      simp only [List.map_cons, List.map_nil, f01, f02, f03, f04]
    rw [(c5_decode_lenient_fallback "01:02:03:04" 24).1 (JsNum.num 1) (JsNum.num 2)
      (JsNum.num 3) (JsNum.num 4) hmap, decodeSum_num]
    norm_num
  · have hs : splitColon " 1: 0: 0: 0".data =
        [[' ', '1'], [' ', '0'], [' ', '0'], [' ', '0']] := by decide
    have hmap : (splitColon " 1: 0: 0: 0".data).map (fun w => jsNumber ⟨w⟩) =
        [some (JsNum.num 1), some (JsNum.num 0), some (JsNum.num 0),
          some (JsNum.num 0)] := by
      rw [hs]
      simp only [List.map_cons, List.map_nil, fs1, fs0]
    rw [(c5_decode_lenient_fallback " 1: 0: 0: 0" 24).1 (JsNum.num 1) (JsNum.num 0)
      (JsNum.num 0) (JsNum.num 0) hmap, decodeSum_num]
    norm_num
  · have hs : splitColon "0x10:0:0:0".data =
        [['0', 'x', '1', '0'], ['0'], ['0'], ['0']] := by decide
    have hmap : (splitColon "0x10:0:0:0".data).map (fun w => jsNumber ⟨w⟩) =
        [some (JsNum.num 16), some (JsNum.num 0), some (JsNum.num 0),
          some (JsNum.num 0)] := by
      rw [hs]
      simp only [List.map_cons, List.map_nil, fx, f0]
    rw [(c5_decode_lenient_fallback "0x10:0:0:0" 24).1 (JsNum.num 16) (JsNum.num 0)
      (JsNum.num 0) (JsNum.num 0) hmap, decodeSum_num]
    norm_num
  · refine (c5_decode_lenient_fallback "garbage" 24).2 ?_
    rintro ⟨h, m, s, f, he⟩
    have hg : (splitColon "garbage".data).map (fun w => jsNumber ⟨w⟩) = [none] := by
      decide
    rw [hg] at he
    simp at he

/-- C10: decode restricts nothing beyond the 4-non-`NaN`-fields check — an
empty field converts to `0`, negative and fractional fields convert to
numbers, and the result is not clamped: `"-1:00:00:00"` decodes to a
negative frame count. -/
theorem c10_decode_accepts_js_numbers :
    jsNumber "" = some (JsNum.num 0) ∧
    jsNumber "-1" = some (JsNum.num (-1)) ∧
    jsNumber "1.5" = some (JsNum.num (3 / 2)) ∧
    timecodeToFrames ":00:00:00" 24 = some (JsNum.num 0) ∧
    timecodeToFrames "-1:00:00:00" 24 = some (JsNum.num (-86400)) := by
  have fm1 : jsNumber ⟨['-', '1']⟩ = some (JsNum.num (-1)) := by
    rw [jsNumber_trim_neg_digits ⟨['-', '1']⟩ ['1'] (by decide) (by decide) (by decide)]
    norm_num [show digitsToNat ['1'] = 1 from by decide]
  have f00 : jsNumber ⟨['0', '0']⟩ = some (JsNum.num 0) := by
    rw [jsNumber_digits ['0', '0'] (by decide) (by decide)]
    norm_num [show digitsToNat ['0', '0'] = 0 from by decide]
  have fnil : jsNumber ⟨([] : List Char)⟩ = some (JsNum.num 0) := rfl
  refine ⟨rfl, ?_, ?_, ?_, ?_⟩
  · rw [jsNumber_trim_neg_digits "-1" ['1'] (by decide) (by decide) (by decide)]
    norm_num [show digitsToNat ['1'] = 1 from by decide]
  · have e : jsNumber "1.5" = some (JsNum.num
        (((digitsToNat ['1'] : ℚ) +
            (digitsToNat ['5'] : ℚ) / (10 : ℚ) ^ (['5'] : List Char).length) *
          (10 : ℚ) ^ (0 : ℤ))) := rfl
    rw [e, show digitsToNat ['1'] = 1 from by decide,
      show digitsToNat ['5'] = 5 from by decide]
    norm_num
  · have hs : splitColon ":00:00:00".data =
        [[], ['0', '0'], ['0', '0'], ['0', '0']] := by decide
    have hmap : (splitColon ":00:00:00".data).map (fun w => jsNumber ⟨w⟩) =
        [some (JsNum.num 0), some (JsNum.num 0), some (JsNum.num 0),
          some (JsNum.num 0)] := by
      rw [hs]
      simp only [List.map_cons, List.map_nil, fnil, f00]
    unfold timecodeToFrames
    rw [hmap]
    show decodeSum (JsNum.num 0) (JsNum.num 0) (JsNum.num 0) (JsNum.num 0) 24 =
        some (JsNum.num 0)
    rw [decodeSum_num]
    norm_num
  · have hs : splitColon "-1:00:00:00".data =
        [['-', '1'], ['0', '0'], ['0', '0'], ['0', '0']] := by decide
    have hmap : (splitColon "-1:00:00:00".data).map (fun w => jsNumber ⟨w⟩) =
        [some (JsNum.num (-1)), some (JsNum.num 0), some (JsNum.num 0),
          some (JsNum.num 0)] := by
      rw [hs]
      simp only [List.map_cons, List.map_nil, fm1, f00]
    unfold timecodeToFrames
    rw [hmap]
    show decodeSum (JsNum.num (-1)) (JsNum.num 0) (JsNum.num 0) (JsNum.num 0) 24 =
        some (JsNum.num (-86400))
    rw [decodeSum_num]
    norm_num

/-! ## Lemmas: the clock -/

lemma runTicks_fields (ts : List ℤ) (s : ClockState) :
    (runTicks s ts).fps = s.fps ∧ (runTicks s ts).startMs = s.startMs ∧
      (runTicks s ts).baseFrames = s.baseFrames ∧
      (runTicks s ts).playing = s.playing := by
  induction ts generalizing s with
  | nil => exact ⟨rfl, rfl, rfl, rfl⟩
  | cons t ts ih => exact ih (tick t s)

/-- Recompute-from-base: after any run of ticks ending at instant `t`, the
frame position depends only on the baseline and `t`, not on the earlier
tick instants. -/
lemma runTicks_last (s : ClockState) (ts : List ℤ) (t : ℤ) :
    (runTicks s (ts ++ [t])).frames =
      s.baseFrames + ((⌊(((t - s.startMs : ℤ) : ℚ) / 1000) * s.fps⌋ : ℤ) : ℚ) := by
  rw [runTicks, List.foldl_append]
  show (tick t (runTicks s ts)).frames = _
  obtain ⟨hf, hs, hb, _⟩ := runTicks_fields ts s
  simp [tick, hf, hs, hb]

lemma drift_bound_aux (x : ℚ) (fps : ℚ) (L T : ℤ)
    (hL : (L : ℚ) ≤ x) (hU : x ≤ (T : ℚ))
    (hLT : (T : ℚ) - (L : ℚ) ≤ 1) (hTf : (T : ℚ) = fps * 10) :
    |(0 : ℚ) + ((⌊x⌋ : ℤ) : ℚ) - fps * 10| ≤ 1 := by
  have h1 : (L : ℚ) ≤ ((⌊x⌋ : ℤ) : ℚ) := by
    exact_mod_cast Int.le_floor.2 hL
  have h2 : ((⌊x⌋ : ℤ) : ℚ) ≤ (T : ℚ) := le_trans (Int.floor_le x) hU
  rw [abs_le]
  constructor <;> linarith

/-! ## C2: drift-free playback -/

/-- C2: starting Playing at frame 0 and ticking at arbitrary instants
(any number, any spacing — only the last tick in the simulated 10-second
window matters, because every tick recomputes from the play baseline),
the final frame position is within 1 of `fps * 10`. -/
theorem c2_drift_free_playback (fps : ℚ) (t0 : ℤ) (ts : List ℤ) (tn : ℤ)
    (hfps : fps = 24 ∨ fps = 25 ∨ fps = 30)
    (h1 : 9980 ≤ tn - t0) (h2 : tn - t0 ≤ 10000) :
    |(runTicks
        (play t0 { fps := fps, frames := 0, playing := false,
                   startMs := 0, baseFrames := 0 })
        (ts ++ [tn])).frames - fps * 10| ≤ 1 := by
  rw [runTicks_last]
  show |(0 : ℚ) + ((⌊(((tn - t0 : ℤ) : ℚ) / 1000) * fps⌋ : ℤ) : ℚ) - fps * 10| ≤ 1
  have hc1 : (9980 : ℚ) ≤ (tn : ℚ) - (t0 : ℚ) := by exact_mod_cast h1
  have hc2 : (tn : ℚ) - (t0 : ℚ) ≤ 10000 := by exact_mod_cast h2
  rcases hfps with h | h | h <;> subst h
  · exact drift_bound_aux _ _ 239 240 (by push_cast; linarith) (by push_cast; linarith)
      (by norm_num) (by norm_num)
  · exact drift_bound_aux _ _ 249 250 (by push_cast; linarith) (by push_cast; linarith)
      (by norm_num) (by norm_num)
  · exact drift_bound_aux _ _ 299 300 (by push_cast; linarith) (by push_cast; linarith)
      (by norm_num) (by norm_num)

/-- Witness for C2: a single tick at `t = 10000` from a start at `t0 = 0`
with `fps = 24`. -/
theorem c2_drift_free_playback_witness :
    ((24 : ℚ) = 24 ∨ (24 : ℚ) = 25 ∨ (24 : ℚ) = 30) ∧
      (9980 : ℤ) ≤ 10000 - 0 ∧ (10000 : ℤ) - 0 ≤ 10000 ∧
      |(runTicks
          (play 0 { fps := 24, frames := 0, playing := false,
                    startMs := 0, baseFrames := 0 })
          ([] ++ [10000])).frames - 24 * 10| ≤ 1 :=
  ⟨Or.inl rfl, by norm_num, by norm_num,
    c2_drift_free_playback 24 0 [] 10000 (Or.inl rfl) (by norm_num) (by norm_num)⟩

/-! ## C3: `adjust` does not re-baseline -/

/-- C3 (code bug evaluation): while Playing at `fps = 24` with baseline
`baseFrames = 0`, `startMs = 0` and current position 240, `adjust 1`
moves the position to 264 but leaves `baseFrames` / `startMs` untouched,
so the next loop tick (at 10001 ms) recomputes 240 from the unchanged
baseline: the adjustment does not survive. -/
theorem c3_adjust_not_rebaselined :
    (adjust 1 { fps := 24, frames := 240, playing := true,
                startMs := 0, baseFrames := 0 }).frames = 264 ∧
    (adjust 1 { fps := 24, frames := 240, playing := true,
                startMs := 0, baseFrames := 0 }).baseFrames = 0 ∧
    (adjust 1 { fps := 24, frames := 240, playing := true,
                startMs := 0, baseFrames := 0 }).startMs = 0 ∧
    (tick 10001 (adjust 1 { fps := 24, frames := 240, playing := true,
                            startMs := 0, baseFrames := 0 })).frames = 240 ∧
    (tick 10001 (adjust 1 { fps := 24, frames := 240, playing := true,
                            startMs := 0, baseFrames := 0 })).frames ≠
      (adjust 1 { fps := 24, frames := 240, playing := true,
                  startMs := 0, baseFrames := 0 }).frames := by
  have ha : (adjust 1 { fps := 24, frames := 240, playing := true,
                        startMs := 0, baseFrames := 0 }).frames = 264 := by
    show max 0 (240 + 1 * 24 : ℚ) = 264
    norm_num
  have ht : (tick 10001 (adjust 1 { fps := 24, frames := 240, playing := true,
                                    startMs := 0, baseFrames := 0 })).frames = 240 := by
    show (0 : ℚ) + ((⌊(((10001 - 0 : ℤ) : ℚ) / 1000) * 24⌋ : ℤ) : ℚ) = 240
    rw [show ⌊(((10001 - 0 : ℤ) : ℚ) / 1000) * 24⌋ = 240 from by
      rw [Int.floor_eq_iff]
      constructor <;> push_cast <;> linarith]
    norm_num
  refine ⟨ha, rfl, rfl, ht, ?_⟩
  rw [ha, ht]
  norm_num

/-! ## C4: frame-rate change preserves wall-clock position -/

/-- C4: `changeFps` from fps `A` to `B` at frame position `f` sets the
position to `Math.round(f / A * B)` — the position is reconverted
through seconds, not kept as a raw frame count — and installs the new
frame rate. -/
theorem c4_changeFps_preserves_time (s : ClockState) (A B : ℤ)
    (hA : 0 < A) (hB : 0 < B) (hfps : s.fps = (A : ℚ)) :
    (changeFps (B : ℚ) s).frames =
      ((jsRound (s.frames / (A : ℚ) * (B : ℚ)) : ℤ) : ℚ) ∧
    (changeFps (B : ℚ) s).fps = (B : ℚ) := by
  constructor
  · show secondsToFrames (framesToSeconds s.frames s.fps) (B : ℚ) = _
    rw [framesToSeconds, secondsToFrames, hfps]
  · rfl

/-- Witness for C4: frame 100 at 24 fps moved to 25 fps. -/
theorem c4_changeFps_preserves_time_witness :
    (0 : ℤ) < 24 ∧ (0 : ℤ) < 25 ∧
    ({ fps := 24, frames := 100, playing := false,
       startMs := 0, baseFrames := 0 } : ClockState).fps = ((24 : ℤ) : ℚ) ∧
    ((changeFps ((25 : ℤ) : ℚ)
        { fps := 24, frames := 100, playing := false,
          startMs := 0, baseFrames := 0 }).frames =
      ((jsRound (({ fps := 24, frames := 100, playing := false,
                    startMs := 0, baseFrames := 0 } : ClockState).frames /
            ((24 : ℤ) : ℚ) * ((25 : ℤ) : ℚ)) : ℤ) : ℚ) ∧
     (changeFps ((25 : ℤ) : ℚ)
        { fps := 24, frames := 100, playing := false,
          startMs := 0, baseFrames := 0 }).fps = ((25 : ℤ) : ℚ)) :=
  ⟨by norm_num, by norm_num, by norm_num,
    c4_changeFps_preserves_time _ 24 25 (by norm_num) (by norm_num) (by norm_num)⟩

/-! ## Lemmas: the ledger -/

lemma captureMany_ids (fs : List ℤ) (st : Ledger) :
    (captureMany fs st).markers.map (fun m => m.id) =
      st.markers.map (fun m => m.id) ++ List.range' st.nextMarkerId fs.length ∧
    (captureMany fs st).nextMarkerId = st.nextMarkerId + fs.length := by
  induction fs generalizing st with
  | nil => simp [captureMany]
  | cons f fs ih =>
    obtain ⟨h1, h2⟩ := ih (capture f st)
    constructor
    · show (captureMany fs (capture f st)).markers.map _ = _
      rw [h1]
      show (st.markers ++
            [({ id := st.nextMarkerId, frames := f, comment := "" } : Marker)]).map _
          ++ List.range' (st.nextMarkerId + 1) fs.length = _
      rw [List.map_append, List.append_assoc]
      simp [List.range'_succ]
    · show (captureMany fs (capture f st)).nextMarkerId = _
      rw [h2]
      show st.nextMarkerId + 1 + fs.length = st.nextMarkerId + (f :: fs).length
      simp only [List.length_cons]
      omega

/-! ## C8: monotonic ids survive clear -/

/-- C8: capturing at the positions of `fs` from a fresh ledger yields ids
`1..N`; clearing and capturing at the positions of `gs` yields ids
`N+1..N+M`; no id repeats across the two batches; and clearing removes
every marker while leaving the next-id counter alone. -/
theorem c8_monotonic_ids_survive_clear (fs gs : List ℤ) (s : Ledger) :
    (captureMany fs initialLedger).markers.map (fun m => m.id) =
        List.range' 1 fs.length ∧
    (captureMany gs (clearMarkers (captureMany fs initialLedger))).markers.map
        (fun m => m.id) = List.range' (fs.length + 1) gs.length ∧
    ((captureMany fs initialLedger).markers.map (fun m => m.id) ++
      (captureMany gs (clearMarkers (captureMany fs initialLedger))).markers.map
        (fun m => m.id)).Nodup ∧
    (clearMarkers s).markers = [] ∧
    (clearMarkers s).nextMarkerId = s.nextMarkerId := by
  have h1 := captureMany_ids fs initialLedger
  have h2 := captureMany_ids gs (clearMarkers (captureMany fs initialLedger))
  have e1 : (captureMany fs initialLedger).markers.map (fun m => m.id) =
      List.range' 1 fs.length := by
    rw [h1.1]
    rfl
  have e2 : (captureMany gs (clearMarkers (captureMany fs initialLedger))).markers.map
      (fun m => m.id) = List.range' (fs.length + 1) gs.length := by
    rw [h2.1]
    show ([] : List Marker).map _ ++
        List.range' (captureMany fs initialLedger).nextMarkerId gs.length = _
    rw [h1.2]
    show List.range' (1 + fs.length) gs.length = _
    rw [Nat.add_comm]
  refine ⟨e1, e2, ?_, rfl, rfl⟩
  rw [e1, e2]
  refine List.Nodup.append (List.nodup_range' _ _) (List.nodup_range' _ _) ?_
  intro a ha1 ha2
  rw [List.mem_range'_1] at ha1 ha2
  omega

/-! ## Lemmas: stable sorting -/

lemma filter_orderedInsert (v : ℤ) (a : Marker) (l : List Marker) :
    (List.orderedInsert framesLE a l).filter (fun m => decide (m.frames = v)) =
      (a :: l).filter (fun m => decide (m.frames = v)) := by
  induction l with
  | nil => rfl
  | cons b t ih =>
    by_cases hab : framesLE a b
    · simp only [List.orderedInsert, if_pos hab]
    · have hba : b.frames < a.frames := not_le.1 hab
      simp only [List.orderedInsert, if_neg hab]
      by_cases hbv : b.frames = v
      · have hav : ¬ a.frames = v := by
          intro h
          rw [hbv] at hba
          rw [h] at hba
          exact lt_irrefl v hba
        simp [List.filter_cons, hbv, hav, ih]
      · by_cases hav : a.frames = v <;> simp [List.filter_cons, hbv, hav, ih]

lemma filter_sortByFrames (ms : List Marker) (v : ℤ) :
    (sortByFrames ms).filter (fun m => decide (m.frames = v)) =
      ms.filter (fun m => decide (m.frames = v)) := by
  induction ms with
  | nil => rfl
  | cons a t ih =>
    have ih' : (List.insertionSort framesLE t).filter (fun m => decide (m.frames = v)) =
        t.filter (fun m => decide (m.frames = v)) := ih
    show (List.orderedInsert framesLE a (List.insertionSort framesLE t)).filter _ = _
    rw [filter_orderedInsert]
    simp only [List.filter_cons, ih']

/-! ## C6: listing order -/

/-- C6: `"created"` returns insertion order unmodified; `"timecode"`
returns a permutation sorted ascending by `frames` in which, for every
frame value, the markers carrying it appear exactly as in insertion
order (stability); on the three-marker example the timecode order of ids
is `[2, 1, 3]`. -/
theorem c6_listing_order (ms : List Marker) :
    orderedMarkers .created ms = ms ∧
    List.Sorted framesLE (orderedMarkers .timecode ms) ∧
    (orderedMarkers .timecode ms).Perm ms ∧
    (∀ v : ℤ,
      (orderedMarkers .timecode ms).filter (fun m => decide (m.frames = v)) =
        ms.filter (fun m => decide (m.frames = v))) ∧
    (orderedMarkers .timecode
        [{ id := 1, frames := 120, comment := "a" },
         { id := 2, frames := 0, comment := "b" },
         { id := 3, frames := 120, comment := "c" }]).map (fun m => m.id) =
      [2, 1, 3] :=
  ⟨rfl, List.sorted_insertionSort framesLE ms, List.perm_insertionSort framesLE ms,
    fun v => filter_sortByFrames ms v, by decide⟩

/-! ## C7: plain-text export format -/

/-- C7: the plain-text export emits, for the marker at 1-based position
`i` of the ordered collection, the line
`"#" ++ pad2 i ++ " [" ++ encode(frames, fps) ++ "] " ++ trim(comment)`
with trailing whitespace removed, lines joined by a newline; and the
end-to-end scenario — fps 24, a marker at frame 120 commented "intro"
captured before a marker at frame 0 commented "start", exported in
timecode order — produces exactly the two expected lines. -/
theorem c7_plaintext_format (sm : SortMode) (ms : List Marker) (fps : ℤ) :
    buildMarkersText sm ms fps =
      ⟨List.intercalate ['\n']
        ((orderedMarkers sm ms).enum.map fun p =>
          trimEndChars ('#' :: padStart2 (natReprChars (p.1 + 1)) ++ ' ' :: '[' ::
            (framesToTimecode p.2.frames fps).data ++ ']' :: ' ' ::
              trimChars p.2.comment.data))⟩ ∧
    buildMarkersText .timecode
        [{ id := 1, frames := 120, comment := "intro" },
         { id := 2, frames := 0, comment := "start" }] 24 =
      "#01 [00:00:00:00] start\n#02 [00:00:05:00] intro" :=
  ⟨rfl, by decide⟩

/-! ## C9: empty-collection guard -/

/-- C9: each export / summary entry point invoked on an empty marker
collection produces exactly one user-visible notice and nothing else: no
file write, no share, no print, no clipboard write, no network call, and
(for the summary) no state change, whatever the other inputs are. -/
theorem c9_empty_export_guard (sm : SortMode) (fps : ℤ) (fileName : String)
    (isWeb canShare hasKey : Bool) (response : String) (st : SummaryState) :
    exportMarkersRun [] sm fps fileName =
      [Effect.alert "Export" "Nessun marker da esportare."] ∧
    exportMarkersPdfRun [] isWeb fileName canShare =
      [Effect.alert "Export" "Nessun marker da esportare."] ∧
    copyMarkersRun [] sm fps =
      [Effect.alert "Export" "Nessun marker da copiare."] ∧
    generateSummaryRun [] sm fps hasKey response st =
      ([Effect.alert "Riepilogo" "Nessun marker disponibile."], st) :=
  ⟨rfl, rfl, rfl, rfl⟩

end FrameMark
